import Mathlib

/-!
Verification development for the numSCAL displacement simulation engine
(`network.h` of OpenSim-Technology/numSCAL_basic).

The repository exposes only the interface header; every method body is
modelled here from the natural-language specification (spec.md), in
rational arithmetic for the physical quantities.  The unit conversions
`PsiToPa`/`PaToPsi` and the const-qualified status accessors come
directly from the header.
-/

namespace PNM

/-- The element graph of a network, over element indices `0 .. n-1`.
Modelled from the spec: §3 "Element Graph" — adjacency, `inlet`,
`outlet` and `closed` flags; the bodies populating it are not in the
visible source. -/
structure Net where
  n : Nat
  adj : Nat → Nat → Bool
  inlet : Nat → Bool
  outlet : Nat → Bool
  closed : Nat → Bool

/-- An element takes part in a clustering pass when it is a real element
of the network, is not `closed`, and satisfies the classification
predicate.  Modelled from the spec: §4.1 "an element with closed=true is
excluded from all clustering passes". -/
def eligible (net : Net) (p : Nat → Bool) (i : Nat) : Bool :=
  decide (i < net.n) && !net.closed i && p i

/-- Eligible neighbours of element `i` under predicate `p` (adjacency is
used symmetrically). -/
def nbrs (net : Net) (p : Nat → Bool) (i : Nat) : List Nat :=
  (List.range net.n).filter (fun j => eligible net p j && (net.adj i j || net.adj j i))

/-- One label-propagation round: each eligible element takes the minimum
of its own label and its eligible neighbours' labels; ineligible
elements keep their own index as label. -/
def relabel (net : Net) (p : Nat → Bool) (lbl : List Nat) : List Nat :=
  (List.range net.n).map (fun i =>
    if eligible net p i then
      (nbrs net p i).foldl (fun m j => min m (lbl.getD j j)) (lbl.getD i i)
    else i)

/-- Final cluster labels: iterate label propagation `n` times from the
identity labelling, so each eligible element ends with the minimal index
of its connected component.  Modelled from the spec: §4.1 contract
"produce the set of maximal connected components of elements satisfying
the predicate"; the union-find (`hkFind`/`hkUnion`/`hkMakeSet`) bodies
are not in the visible source, so the contract is realised by an
equivalent label-minimisation. -/
def finalLabels (net : Net) (p : Nat → Bool) : List Nat :=
  (relabel net p)^[net.n] (List.range net.n)

/-- A cluster: representative id, member list and spanning flag.
Modelled from the spec: §3 "Cluster ... attributes: spanning flag
(touches both inlet and outlet), member list". -/
structure Cluster where
  cid : Nat
  members : List Nat
  spanning : Bool
deriving DecidableEq, Repr

/-- Build the cluster of label `l`: its members are the eligible
elements carrying that label, and it is marked spanning when the member
list holds at least one inlet and at least one outlet element.
Modelled from the spec: §4.1 "marks spanning if the cluster contains at
least one inlet element and at least one outlet element reachable in
the same set". -/
def mkCluster (net : Net) (p : Nat → Bool) (lbl : List Nat) (l : Nat) : Cluster :=
  let ms := (List.range net.n).filter (fun i => eligible net p i && (lbl.getD i i == l))
  { cid := l
    members := ms
    spanning := ms.any net.inlet && ms.any net.outlet }

/-- A clustering pass: compute final labels, then assemble one cluster
per distinct label of an eligible element.  Modelled from the spec:
§4.1 "After all unions, one pass assigns every element to its set's
representative cluster ... and marks spanning ...". -/
def clusterElements (net : Net) (p : Nat → Bool) : List Cluster :=
  let lbl := finalLabels net p
  let reps := (((List.range net.n).filter (fun i => eligible net p i)).map
    (fun i => lbl.getD i i)).dedup
  reps.map (mkCluster net p lbl)

/-- Mutable clustering state held by the network: the element table
(graph), each element's weak cluster back-reference (`assign`), the
active cluster list and the per-element `trapped` flags.  Modelled from
the spec: §3 "an Element holds a weak/back reference to its current
cluster, overwritten on each re-clustering pass" and the `trapped`
flag; the network owns "the current set of active Clusters". -/
structure CState where
  net : Net
  assign : List Nat
  clusters : List Cluster
  trapped : List Bool

/-- A clustering pass on the network state: recompute every element's
cluster back-reference and the active cluster list from scratch from
the current element state.  Modelled from the spec: §3 "Clusters are
transient — recomputed from scratch whenever the governing predicate
changes ... never persisted or incrementally patched". -/
def runClusteringPass (p : Nat → Bool) (s : CState) : CState :=
  { s with assign := finalLabels s.net p
           clusters := clusterElements s.net p }

/-- Advanced trapping: re-cluster, then mark an element trapped exactly
when it is eligible and no spanning cluster of the fresh pass contains
it.  Modelled from the spec: §4.4 "once enabled, an element is trapped
only if its current cluster fails the spanning test". -/
def setAdvancedTrappingPT (p : Nat → Bool) (s : CState) : CState :=
  let s' := runClusteringPass p s
  { s' with trapped := (List.range s.net.n).map (fun i =>
      eligible s.net p i &&
        !((clusterElements s.net p).any (fun c => c.spanning && c.members.contains i))) }

/-- A concrete five-element network used to instantiate the clustering
theorems: a chain 0—1—2 from inlet (0) to outlet (2), an isolated
element 3, and a closed element 4. -/
def wNet : Net where
  n := 5
  adj := fun i j => (i == 0 && j == 1) || (i == 1 && j == 2) || (i == 3 && j == 4)
  inlet := fun i => i == 0
  outlet := fun i => i == 2
  closed := fun i => i == 4

/-- C1: every cluster produced by a clustering pass (`clusterElements`
and its wrappers) is marked spanning if and only if its member list —
the connected set the cluster represents — contains at least one inlet
element and at least one outlet element. -/
theorem clusterElements_spanning_iff (net : Net) (p : Nat → Bool) (c : Cluster)
    (hc : c ∈ clusterElements net p) :
    c.spanning = true ↔
      (∃ i ∈ c.members, net.inlet i = true) ∧ (∃ o ∈ c.members, net.outlet o = true) := by
  simp only [clusterElements, List.mem_map] at hc
  obtain ⟨l, -, rfl⟩ := hc
  simp [mkCluster, List.any_eq_true, Bool.and_eq_true, and_assoc]

/-- Witness for C1 on the concrete network `wNet`: the cluster of the
chain 0—1—2 is marked spanning, and indeed holds the inlet 0 and the
outlet 2. -/
theorem clusterElements_spanning_iff_witness :
    (Cluster.mk 0 [0, 1, 2] true).spanning = true ↔
      (∃ i ∈ (Cluster.mk 0 [0, 1, 2] true).members, wNet.inlet i = true) ∧
        (∃ o ∈ (Cluster.mk 0 [0, 1, 2] true).members, wNet.outlet o = true) :=
  clusterElements_spanning_iff wNet (fun _ => true) (Cluster.mk 0 [0, 1, 2] true) (by decide)

/-- C2: re-running a clustering pass on an unchanged element state is
idempotent — the second pass reproduces exactly the cluster
back-references, cluster list and the rest of the state of the first. -/
theorem runClusteringPass_idempotent (p : Nat → Bool) (s : CState) :
    runClusteringPass p (runClusteringPass p s) = runClusteringPass p s := rfl

/-- C3: after the trapping pass (`setAdvancedTrappingPT`), every
element whose `trapped` flag is set belongs to no spanning cluster:
a cluster of the resulting state that contains a trapped element does
not span inlet-to-outlet. -/
theorem setAdvancedTrappingPT_trapped_not_spanning (p : Nat → Bool) (s : CState) (i : Nat)
    (c : Cluster) (hc : c ∈ (setAdvancedTrappingPT p s).clusters)
    (hm : i ∈ c.members)
    (ht : (setAdvancedTrappingPT p s).trapped.getD i false = true) :
    c.spanning = false := by
  by_contra hsp
  rw [Bool.not_eq_false] at hsp
  have htrap : (setAdvancedTrappingPT p s).trapped =
      (List.range s.net.n).map (fun j => eligible s.net p j &&
        !((clusterElements s.net p).any (fun d => d.spanning && d.members.contains j))) := rfl
  rw [htrap, List.getD_eq_getElem?_getD, List.getElem?_map] at ht
  by_cases hi : i < s.net.n
  · rw [List.getElem?_range hi] at ht
    simp only [Option.map_some', Option.getD_some, Bool.and_eq_true, Bool.not_eq_true',
      List.any_eq_false] at ht
    have hcc : c ∈ clusterElements s.net p := hc
    have := ht.2 c hcc
    simp [hsp, hm] at this
  · rw [List.getElem?_eq_none (by simpa using Nat.le_of_not_lt hi)] at ht
    simp at ht

/-- Witness for C3 on `wNet`: with every element phase-eligible, the
isolated element 3 is trapped by the pass, and its singleton cluster is
indeed not spanning. -/
theorem setAdvancedTrappingPT_trapped_not_spanning_witness :
    (Cluster.mk 3 [3] false).spanning = false :=
  setAdvancedTrappingPT_trapped_not_spanning (fun _ => true) (CState.mk wNet [] [] []) 3
    (Cluster.mk 3 [3] false) (by decide) (by decide) (by decide)

/-- A boundary element of the unsteady-state (USS) engine: pore volume,
current phase fractions, and the net invading-phase (water) volumetric
inflow rate derived from the pressure solve.  Modelled from the spec:
§4.4 step 2 "Compute each boundary element's net phase-volume change
rate from its connected pore flows". -/
structure USSElem where
  volume : ℚ
  waterFrac : ℚ
  oilFrac : ℚ
  gasFrac : ℚ
  inflow : ℚ
deriving DecidableEq, Repr

/-- Time for the element's water fraction to reach the nearest bound of
[0, 1] at its current inflow rate; `none` when the element holds no net
flow.  Modelled from the spec: §4.4 step 3, the per-element CFL-like
constraint. -/
def fillTime (e : USSElem) : Option ℚ :=
  if 0 < e.inflow then some ((1 - e.waterFrac) * e.volume / e.inflow)
  else if e.inflow < 0 then some (e.waterFrac * e.volume / (-e.inflow))
  else none

/-- The stable time step: the configured step capped by every element's
fill time.  Modelled from the spec: §4.4 step 3 "Compute the maximum
stable time step dt such that no element's fluid fraction would
overshoot [0, 1] in this step". -/
def calculateTimeStepUSSPT (cap : ℚ) (es : List USSElem) : ℚ :=
  es.foldl (fun dt e =>
    match fillTime e with
    | some t => min dt t
    | none => dt) cap

/-- Advance every element's fluid fractions by `dt`: the water fraction
moves by inflow·dt/volume and the oil fraction takes up the remaining
pore volume.  Modelled from the spec: §4.4 step 4 "Advance fluid
fractions for all boundary elements by dt" and §3 "Fluid volume is
conserved". -/
def updateElementaryFluidFractionsPT (dt : ℚ) (es : List USSElem) : List USSElem :=
  es.map (fun e =>
    let w := e.waterFrac + e.inflow * dt / e.volume
    { e with waterFrac := w, oilFrac := 1 - w - e.gasFrac })

theorem calcTS_le_init (cap : ℚ) (es : List USSElem) :
    calculateTimeStepUSSPT cap es ≤ cap := by
  induction es generalizing cap with
  | nil => exact le_refl cap
  | cons e es ih =>
    show calculateTimeStepUSSPT (match fillTime e with
      | some t => min cap t | none => cap) es ≤ cap
    cases hft : fillTime e with
    | none => simpa using ih cap
    | some t => exact le_trans (ih (min cap t)) (min_le_left cap t)

theorem calcTS_le_fillTime (cap : ℚ) (es : List USSElem) (e : USSElem)
    (he : e ∈ es) (t : ℚ) (hft : fillTime e = some t) :
    calculateTimeStepUSSPT cap es ≤ t := by
  induction es generalizing cap with
  | nil => cases he
  | cons e' es ih =>
    rcases List.mem_cons.mp he with rfl | hmem
    · show calculateTimeStepUSSPT (match fillTime e with
        | some t => min cap t | none => cap) es ≤ t
      rw [hft]
      exact le_trans (calcTS_le_init (min cap t) es) (min_le_right cap t)
    · exact ih _ hmem

theorem calcTS_nonneg (cap : ℚ) (es : List USSElem) (hcap : 0 ≤ cap)
    (h : ∀ e ∈ es, ∀ t, fillTime e = some t → 0 ≤ t) :
    0 ≤ calculateTimeStepUSSPT cap es := by
  induction es generalizing cap with
  | nil => exact hcap
  | cons e es ih =>
    show 0 ≤ calculateTimeStepUSSPT (match fillTime e with
      | some t => min cap t | none => cap) es
    cases hft : fillTime e with
    | none => exact ih cap hcap (fun e' he' => h e' (List.mem_cons_of_mem e he'))
    | some t =>
      refine ih (min cap t) (le_min hcap ?_) (fun e' he' => h e' (List.mem_cons_of_mem e he'))
      exact h e (List.mem_cons_self e es) t hft

theorem fillTime_nonneg (e : USSElem) (hv : 0 < e.volume)
    (h0 : 0 ≤ e.waterFrac) (h1 : e.waterFrac ≤ 1) (t : ℚ) (hft : fillTime e = some t) :
    0 ≤ t := by
  unfold fillTime at hft
  split at hft
  · rename_i hq
    obtain rfl : (1 - e.waterFrac) * e.volume / e.inflow = t := by injection hft
    exact div_nonneg (mul_nonneg (by linarith) hv.le) hq.le
  · split at hft
    · rename_i hq
      obtain rfl : e.waterFrac * e.volume / (-e.inflow) = t := by injection hft
      have : 0 < -e.inflow := by linarith
      positivity
    · cases hft

/-- C4: one USS step with the time step chosen by
`calculateTimeStepUSSPT` keeps every element's fluid fractions inside
[0, 1]: for any state with positive pore volumes and fractions in
[0, 1] (two-phase, no gas), applying `updateElementaryFluidFractionsPT`
with that step leaves every water and oil fraction in [0, 1]. -/
theorem uss_step_keeps_fractions_in_unit (cap : ℚ) (es : List USSElem)
    (hcap : 0 ≤ cap)
    (hok : ∀ e ∈ es, 0 < e.volume ∧ 0 ≤ e.waterFrac ∧ e.waterFrac ≤ 1 ∧ e.gasFrac = 0)
    (e' : USSElem)
    (he' : e' ∈ updateElementaryFluidFractionsPT (calculateTimeStepUSSPT cap es) es) :
    (0 ≤ e'.waterFrac ∧ e'.waterFrac ≤ 1) ∧ (0 ≤ e'.oilFrac ∧ e'.oilFrac ≤ 1) := by
  set dt := calculateTimeStepUSSPT cap es with hdtdef
  have hdt0 : 0 ≤ dt :=
    calcTS_nonneg cap es hcap (fun e he t hft =>
      fillTime_nonneg e (hok e he).1 (hok e he).2.1 (hok e he).2.2.1 t hft)
  simp only [updateElementaryFluidFractionsPT, List.mem_map] at he'
  obtain ⟨e, he, rfl⟩ := he'
  obtain ⟨hv, h0, h1, hg⟩ := hok e he
  dsimp only
  have hd : -e.waterFrac ≤ e.inflow * dt / e.volume ∧
      e.inflow * dt / e.volume ≤ 1 - e.waterFrac := by
    rcases lt_trichotomy e.inflow 0 with hq | hq | hq
    · have hnq : 0 < -e.inflow := by linarith
      have hft : fillTime e = some (e.waterFrac * e.volume / (-e.inflow)) := by
        unfold fillTime
        rw [if_neg (by linarith), if_pos hq]
      have hle : dt ≤ e.waterFrac * e.volume / (-e.inflow) :=
        calcTS_le_fillTime cap es e he _ hft
      have h2 : dt * -e.inflow ≤ e.waterFrac * e.volume := (le_div_iff₀ hnq).mp hle
      constructor
      · exact (le_div_iff₀ hv).mpr (by nlinarith)
      · have hd0 : e.inflow * dt / e.volume ≤ 0 := (div_le_iff₀ hv).mpr (by nlinarith)
        linarith
    · rw [hq]
      constructor
      · rw [zero_mul, zero_div]; linarith
      · rw [zero_mul, zero_div]; linarith
    · have hft : fillTime e = some ((1 - e.waterFrac) * e.volume / e.inflow) := by
        unfold fillTime
        rw [if_pos hq]
      have hle : dt ≤ (1 - e.waterFrac) * e.volume / e.inflow :=
        calcTS_le_fillTime cap es e he _ hft
      have h2 : dt * e.inflow ≤ (1 - e.waterFrac) * e.volume := (le_div_iff₀ hq).mp hle
      constructor
      · have hd0 : 0 ≤ e.inflow * dt / e.volume :=
          div_nonneg (mul_nonneg hq.le hdt0) hv.le
        linarith
      · exact (div_le_iff₀ hv).mpr (by nlinarith)
  refine ⟨⟨by linarith [hd.1], by linarith [hd.2]⟩, ?_, ?_⟩ <;>
    rw [hg] <;> [linarith [hd.2]; linarith [hd.1]]

/-- Witness for C4: a two-element state where the chosen step is active
on both constraints; the fast-filling element lands exactly on water
fraction 1 with all fractions inside [0, 1]. -/
theorem uss_step_keeps_fractions_in_unit_witness :
    (0 ≤ (USSElem.mk 1 1 0 0 2).waterFrac ∧ (USSElem.mk 1 1 0 0 2).waterFrac ≤ 1) ∧
      (0 ≤ (USSElem.mk 1 1 0 0 2).oilFrac ∧ (USSElem.mk 1 1 0 0 2).oilFrac ≤ 1) :=
  uss_step_keeps_fractions_in_unit 1
    [USSElem.mk 1 (1/2) (1/2) 0 2, USSElem.mk 1 (3/4) (1/4) 0 (-3)]
    (by norm_num)
    (by intro e he
        rcases List.mem_cons.mp he with rfl | he
        · norm_num
        rcases List.mem_cons.mp he with rfl | he
        · norm_num
        cases he)
    (USSElem.mk 1 1 0 0 2)
    (by have hts : calculateTimeStepUSSPT 1
          [USSElem.mk 1 (1/2) (1/2) 0 2, USSElem.mk 1 (3/4) (1/4) 0 (-3)] = 1/4 := by
          simp only [calculateTimeStepUSSPT, List.foldl, fillTime]
          norm_num
        rw [hts]
        simp only [updateElementaryFluidFractionsPT, List.map, List.mem_cons]
        left
        norm_num)

/-- C5: `updateElementaryFluidFractionsPT` conserves fluid volume in
every element: after the step, oil, water and gas phase volumes sum to
the element's pore volume, and the phase fractions sum to 1 within
1e-9 (exactly, in real arithmetic). -/
theorem updateElementaryFluidFractionsPT_conserves_volume (dt : ℚ) (es : List USSElem)
    (e : USSElem) (he : e ∈ updateElementaryFluidFractionsPT dt es) :
    e.waterFrac * e.volume + e.oilFrac * e.volume + e.gasFrac * e.volume = e.volume ∧
      |e.waterFrac + e.oilFrac + e.gasFrac - 1| ≤ 1 / 1000000000 := by
  simp only [updateElementaryFluidFractionsPT, List.mem_map] at he
  obtain ⟨e0, -, rfl⟩ := he
  dsimp only
  constructor
  · ring
  · have h0 : e0.waterFrac + e0.inflow * dt / e0.volume +
        (1 - (e0.waterFrac + e0.inflow * dt / e0.volume) - e0.gasFrac) +
        e0.gasFrac - 1 = 0 := by ring
    rw [h0]
    norm_num

/-- Witness for C5: a single-element state updated with a zero step;
the updated element's phase volumes sum to its pore volume. -/
theorem updateElementaryFluidFractionsPT_conserves_volume_witness :
    (USSElem.mk 1 (1/2) (1/2) 0 0).waterFrac * (USSElem.mk 1 (1/2) (1/2) 0 0).volume +
        (USSElem.mk 1 (1/2) (1/2) 0 0).oilFrac * (USSElem.mk 1 (1/2) (1/2) 0 0).volume +
        (USSElem.mk 1 (1/2) (1/2) 0 0).gasFrac * (USSElem.mk 1 (1/2) (1/2) 0 0).volume =
      (USSElem.mk 1 (1/2) (1/2) 0 0).volume ∧
      |(USSElem.mk 1 (1/2) (1/2) 0 0).waterFrac + (USSElem.mk 1 (1/2) (1/2) 0 0).oilFrac +
          (USSElem.mk 1 (1/2) (1/2) 0 0).gasFrac - 1| ≤ 1 / 1000000000 :=
  updateElementaryFluidFractionsPT_conserves_volume 0 [USSElem.mk 1 (1/2) (1/2) 0 0]
    (USSElem.mk 1 (1/2) (1/2) 0 0)
    (by simp only [updateElementaryFluidFractionsPT, List.map, List.mem_cons]
        left
        norm_num)

/-- A simulation configuration: the pseudorandom seed, the initial
element table supplied by the geometry collaborator, the configured
base time step and the target simulation time.  Modelled from the spec:
§4.4 (termination at configured simulation time) and §6 (pseudorandom
collaborator with a fixed seed). -/
structure SimConfig where
  seed : Nat
  initialElems : List USSElem
  timeStep : ℚ
  simulationTime : ℚ

/-- One draw of the pseudorandom collaborator, advancing its state.
Modelled from the spec: §6 "supplies ... variates ... given a fixed
seed (reproducibility contract: same seed implies identical simulation
trajectory)" — a deterministic stream function of the seed state stands
in for the mt19937 engine, whose body is not in the visible source. -/
def prngNext (state : Nat) : Nat := (state * 1103515245 + 12345) % 2 ^ 31

/-- The running state of the USS displacement loop. -/
structure SimState where
  time : ℚ
  elems : List USSElem
  rngState : Nat
  cancel : Bool

/-- Volume-weighted water saturation of the element table.  Modelled
from the spec: §6 numeric outputs "saturations". -/
def saturationOf (es : List USSElem) : ℚ :=
  (es.foldl (fun a e => a + e.waterFrac * e.volume) 0) /
    (es.foldl (fun a e => a + e.volume) 0)

/-- Loop guard of the USS engine: stop on the cooperative `cancel` flag
or once the configured simulation time is reached.  Modelled from the
spec: §4.4 "Termination: stops at configured simulation time ...; a
cancel flag checked every step". -/
def ussDone (cfg : SimConfig) (s : SimState) : Bool :=
  s.cancel || decide (cfg.simulationTime ≤ s.time)

/-- One USS step: choose the stable time step, advance the fluid
fractions, advance time and the pseudorandom state.  Modelled from the
spec: §4.4 steps 1-6. -/
def ussStep (cfg : SimConfig) (s : SimState) : SimState :=
  let dt := calculateTimeStepUSSPT cfg.timeStep s.elems
  { s with time := s.time + dt
           elems := updateElementaryFluidFractionsPT dt s.elems
           rngState := prngNext s.rngState }

/-- Big-step run relation of the USS loop: `UssRun cfg s outs` holds
when a run started at `s` terminates and emits the saturation-vs-time
record sequence `outs`.  Modelled from the spec: §4.4 step 6 "Emit
output record (saturation, time, ...)". -/
inductive UssRun (cfg : SimConfig) : SimState → List (ℚ × ℚ) → Prop
  | stop : ∀ s, ussDone cfg s = true → UssRun cfg s []
  | step : ∀ s outs, ussDone cfg s = false → UssRun cfg (ussStep cfg s) outs →
      UssRun cfg s (((ussStep cfg s).time, saturationOf (ussStep cfg s).elems) :: outs)

/-- The state `runSimulation` starts from: time zero, the configured
element table, the pseudorandom engine seeded with the configured seed,
no cancellation.  Modelled from the spec: §6 collaborators. -/
def initState (cfg : SimConfig) : SimState :=
  { time := 0, elems := cfg.initialElems, rngState := cfg.seed, cancel := false }

theorem ussRun_unique (cfg : SimConfig) (s : SimState) (o1 o2 : List (ℚ × ℚ))
    (h1 : UssRun cfg s o1) (h2 : UssRun cfg s o2) : o1 = o2 := by
  induction h1 generalizing o2 with
  | stop s hdone =>
    cases h2 with
    | stop _ _ => rfl
    | step _ _ hnd _ => rw [hdone] at hnd; cases hnd
  | step s outs hnd hrun ih =>
    cases h2 with
    | stop _ hdone => rw [hdone] at hnd; cases hnd
    | step _ _ _ hrun2 => rw [ih _ hrun2]

/-- C6: the simulation is a deterministic function of configuration and
seed — two executions of the USS run from the same configuration (which
fixes the seed) emit identical saturation-vs-time output sequences. -/
theorem runSimulation_deterministic (cfg : SimConfig) (o1 o2 : List (ℚ × ℚ))
    (h1 : UssRun cfg (initState cfg) o1) (h2 : UssRun cfg (initState cfg) o2) :
    o1 = o2 :=
  ussRun_unique cfg (initState cfg) o1 o2 h1 h2

/-- Witness for C6: a configuration whose target time is already
reached; both runs emit the empty output sequence. -/
theorem runSimulation_deterministic_witness :
    ([] : List (ℚ × ℚ)) = ([] : List (ℚ × ℚ)) :=
  runSimulation_deterministic (SimConfig.mk 42 [] 1 0) [] []
    (UssRun.stop _ (by norm_num [ussDone, initState]))
    (UssRun.stop _ (by norm_num [ussDone, initState]))

/-- A candidate element at the invasion front of a steady-state stage:
its element id and capillary entry pressure.  Modelled from the spec:
§4.3 step 1 "Rank all Elements at the invading-phase front by capillary
entry pressure". -/
structure Cand where
  eid : Nat
  entryPressure : ℚ
deriving DecidableEq, Repr

/-- Invasion preference order: lower capillary entry pressure first,
ties broken by ascending element id.  Modelled from the spec: §4.3
"Tie-break policy: equal capillary entry pressures are broken by
ascending element id". -/
def lexLE (a b : Cand) : Prop :=
  a.entryPressure < b.entryPressure ∨
    (a.entryPressure = b.entryPressure ∧ a.eid ≤ b.eid)

/-- Choose the preferred of two invasion candidates. -/
def pickBetter (a b : Cand) : Cand :=
  if b.entryPressure < a.entryPressure ∨
      (b.entryPressure = a.entryPressure ∧ b.eid < a.eid)
  then b else a

/-- The element invaded next by a steady-state invasion-percolation
stage: the eligible candidate of least entry pressure, ties by least
id.  Modelled from the spec: §4.3 step 2 "Invade the lowest-resistance
eligible element". -/
def selectNext : List Cand → Option Cand
  | [] => none
  | c :: cs => some (cs.foldl pickBetter c)

theorem lexLE_refl (a : Cand) : lexLE a a := Or.inr ⟨rfl, le_refl _⟩

theorem lexLE_pickBetter_left (a b : Cand) : lexLE (pickBetter a b) a := by
  unfold pickBetter
  split
  · rename_i h
    rcases h with h | ⟨heq, hlt⟩
    · exact Or.inl h
    · exact Or.inr ⟨heq, Nat.le_of_lt hlt⟩
  · exact lexLE_refl a

theorem lexLE_pickBetter_right (a b : Cand) : lexLE (pickBetter a b) b := by
  unfold pickBetter
  split
  · exact lexLE_refl b
  · rename_i h
    push_neg at h
    rcases lt_trichotomy a.entryPressure b.entryPressure with hlt | heq | hgt
    · exact Or.inl hlt
    · exact Or.inr ⟨heq, h.2 heq.symm⟩
    · exact absurd hgt (not_lt.mpr h.1)

theorem lexLE_trans (a b c : Cand) (hab : lexLE a b) (hbc : lexLE b c) : lexLE a c := by
  rcases hab with h1 | ⟨e1, l1⟩ <;> rcases hbc with h2 | ⟨e2, l2⟩
  · exact Or.inl (lt_trans h1 h2)
  · exact Or.inl (e2 ▸ h1)
  · exact Or.inl (e1 ▸ h2)
  · exact Or.inr ⟨e1.trans e2, le_trans l1 l2⟩

theorem foldl_pickBetter_le (cs : List Cand) (a : Cand) :
    lexLE (cs.foldl pickBetter a) a ∧ ∀ b ∈ cs, lexLE (cs.foldl pickBetter a) b := by
  induction cs generalizing a with
  | nil => exact ⟨lexLE_refl a, fun b hb => absurd hb (List.not_mem_nil b)⟩
  | cons b cs ih =>
    obtain ⟨h1, h2⟩ := ih (pickBetter a b)
    refine ⟨lexLE_trans _ _ _ h1 (lexLE_pickBetter_left a b), fun x hx => ?_⟩
    rcases List.mem_cons.mp hx with rfl | hx
    · exact lexLE_trans _ _ _ h1 (lexLE_pickBetter_right a x)
    · exact h2 x hx

/-- C7: in the invasion selection of the steady-state stages, whenever
two eligible candidates carry equal capillary entry pressure, the
selected (first-invaded) element has the lower id: the element returned
by `selectNext` has minimal id among all candidates of its entry
pressure. -/
theorem selectNext_tie_break (l : List Cand) (e : Cand)
    (hsel : selectNext l = some e) (b : Cand) (hb : b ∈ l)
    (hp : b.entryPressure = e.entryPressure) : e.eid ≤ b.eid := by
  cases l with
  | nil => cases hsel
  | cons c cs =>
    obtain rfl : cs.foldl pickBetter c = e := by injection hsel
    have h := foldl_pickBetter_le cs c
    rcases List.mem_cons.mp hb with rfl | hb
    · rcases h.1 with hlt | ⟨heq, hle⟩
      · rw [hp] at hlt
        exact absurd hlt (lt_irrefl _)
      · exact hle
    · rcases h.2 b hb with hlt | ⟨heq, hle⟩
      · rw [hp] at hlt
        exact absurd hlt (lt_irrefl _)
      · exact hle

/-- Witness for C7: two parallel candidates with equal entry pressure;
the one with the lower id (3) is selected before the other (7). -/
theorem selectNext_tie_break_witness : (Cand.mk 3 5).eid ≤ (Cand.mk 7 5).eid :=
  selectNext_tie_break [Cand.mk 7 5, Cand.mk 3 5] (Cand.mk 3 5) (by decide)
    (Cand.mk 7 5) (by decide) (by decide)

/-- Result classification of a pressure solve.  Modelled from the
spec: §7 error taxonomy (`SolverDivergence`, with the fully
disconnected network escalating to fatal). -/
inductive SolveOutcome
  | ok
  | solverDivergence
  | fatalDisconnected
deriving DecidableEq, Repr

/-- Pressure-solve state of the network: per-pore conductances, the
per-pore flow rates written by the solve, the runtime notification
string and whether the simulation was aborted. -/
structure PState where
  conductances : List ℚ
  flows : List ℚ
  simulationNotification : String
  aborted : Bool
deriving DecidableEq, Repr

/-- The network is fully disconnected when every pore conductance is
zero.  Modelled from the spec: §4.2 "matrix is singular (fully
disconnected network, zero conductance everywhere)". -/
def fullyDisconnected (conds : List ℚ) : Bool :=
  conds.all (fun c => decide (c = 0))

/-- Per-pore flow rates from a solved node pressure field: flow =
conductance × pressure difference across the pore.  Modelled from the
spec: §4.2 "writes per-pore flow rate = conductance × (pressure
difference ...)". -/
def computeFlows (conds : List ℚ) (p : List ℚ) : List ℚ :=
  (List.range conds.length).map (fun i => conds.getD i 0 * (p.getD i 0 - p.getD (i + 1) 0))

/-- The single-phase pressure solve.  The external sparse solver is an
input (`ext`): a pressure field or a convergence failure.  On failure
the affected flows are zeroed and a notification is logged without
aborting; a fully disconnected network is fatal.  Modelled from the
spec: §4.2 failure handling and §7 `SolverDivergence`. -/
def solvePressures (ext : Except Unit (List ℚ)) (s : PState) : PState × SolveOutcome :=
  if fullyDisconnected s.conductances then
    ({ s with aborted := true
              simulationNotification := "fatal: fully disconnected network" },
      SolveOutcome.fatalDisconnected)
  else
    match ext with
    | Except.ok p =>
        ({ s with flows := computeFlows s.conductances p }, SolveOutcome.ok)
    | Except.error _ =>
        ({ s with flows := List.replicate s.conductances.length 0
                  simulationNotification := "solver divergence: flow treated as zero" },
          SolveOutcome.solverDivergence)

/-- The two-phase pressure solve, with the local capillary pressure of
each pore acting as a source term on its flow; failure handling is that
of `solvePressures`.  Modelled from the spec: §4.2 two-phase variant. -/
def solvePressuresWithCapillaryPressures (cap : List ℚ) (ext : Except Unit (List ℚ))
    (s : PState) : PState × SolveOutcome :=
  if fullyDisconnected s.conductances then
    ({ s with aborted := true
              simulationNotification := "fatal: fully disconnected network" },
      SolveOutcome.fatalDisconnected)
  else
    match ext with
    | Except.ok p =>
        ({ s with flows := (List.range s.conductances.length).map (fun i =>
            s.conductances.getD i 0 *
              (p.getD i 0 - p.getD (i + 1) 0 - cap.getD i 0)) }, SolveOutcome.ok)
    | Except.error _ =>
        ({ s with flows := List.replicate s.conductances.length 0
                  simulationNotification := "solver divergence: flow treated as zero" },
          SolveOutcome.solverDivergence)

/-- C8: when the external linear solver fails on a running simulation,
both pressure-solve operations report `solverDivergence`, zero every
affected flow rather than trusting partial output, log a notification,
and do not abort; only a fully disconnected network is fatal. -/
theorem solvePressures_divergence_recovery (s : PState) (ext : Except Unit (List ℚ))
    (hfail : ext = Except.error ()) (hab : s.aborted = false) :
    (fullyDisconnected s.conductances = false →
      (solvePressures ext s).2 = SolveOutcome.solverDivergence ∧
        (∀ q ∈ (solvePressures ext s).1.flows, q = 0) ∧
        (solvePressures ext s).1.simulationNotification ≠ "" ∧
        (solvePressures ext s).1.aborted = false ∧
        (solvePressuresWithCapillaryPressures [] ext s).2 = SolveOutcome.solverDivergence ∧
        (∀ q ∈ (solvePressuresWithCapillaryPressures [] ext s).1.flows, q = 0) ∧
        (solvePressuresWithCapillaryPressures [] ext s).1.simulationNotification ≠ "" ∧
        (solvePressuresWithCapillaryPressures [] ext s).1.aborted = false) ∧
    (fullyDisconnected s.conductances = true →
      (solvePressures ext s).2 = SolveOutcome.fatalDisconnected ∧
        (solvePressures ext s).1.aborted = true) := by
  subst hfail
  constructor
  · intro hconn
    unfold solvePressures solvePressuresWithCapillaryPressures
    rw [hconn]
    simp [hab]
  · intro hconn
    unfold solvePressures
    rw [hconn]
    simp

/-- Witness for C8: a two-pore network with one conducting pore; the
solver failure is recovered with zero flows, a logged notification and
no abort. -/
theorem solvePressures_divergence_recovery_witness :
    (fullyDisconnected (PState.mk [1, 0] [5, 5] "" false).conductances = false →
      (solvePressures (Except.error ()) (PState.mk [1, 0] [5, 5] "" false)).2 =
          SolveOutcome.solverDivergence ∧
        (∀ q ∈ (solvePressures (Except.error ())
            (PState.mk [1, 0] [5, 5] "" false)).1.flows, q = 0) ∧
        (solvePressures (Except.error ())
            (PState.mk [1, 0] [5, 5] "" false)).1.simulationNotification ≠ "" ∧
        (solvePressures (Except.error ()) (PState.mk [1, 0] [5, 5] "" false)).1.aborted = false ∧
        (solvePressuresWithCapillaryPressures [] (Except.error ())
            (PState.mk [1, 0] [5, 5] "" false)).2 = SolveOutcome.solverDivergence ∧
        (∀ q ∈ (solvePressuresWithCapillaryPressures [] (Except.error ())
            (PState.mk [1, 0] [5, 5] "" false)).1.flows, q = 0) ∧
        (solvePressuresWithCapillaryPressures [] (Except.error ())
            (PState.mk [1, 0] [5, 5] "" false)).1.simulationNotification ≠ "" ∧
        (solvePressuresWithCapillaryPressures [] (Except.error ())
            (PState.mk [1, 0] [5, 5] "" false)).1.aborted = false) ∧
    (fullyDisconnected (PState.mk [1, 0] [5, 5] "" false).conductances = true →
      (solvePressures (Except.error ()) (PState.mk [1, 0] [5, 5] "" false)).2 =
          SolveOutcome.fatalDisconnected ∧
        (solvePressures (Except.error ()) (PState.mk [1, 0] [5, 5] "" false)).1.aborted = true) :=
  solvePressures_divergence_recovery (PState.mk [1, 0] [5, 5] "" false)
    (Except.error ()) rfl rfl

/-- Pressure conversion from psi to Pa, from `network.h` line 138:
`pressure/14.50377*1e5`, embedded in exact rational arithmetic. -/
def PsiToPa (pressure : ℚ) : ℚ := pressure / 14.50377 * 1e5

/-- Pressure conversion from Pa to psi, from `network.h` line 139:
`pressure*14.50377/1e5`, embedded in exact rational arithmetic. -/
def PaToPsi (pressure : ℚ) : ℚ := pressure * 14.50377 / 1e5

/-- C9: the two pressure unit conversions are mutually inverse for
every pressure value, exactly, in real (here rational) arithmetic. -/
theorem PsiToPa_PaToPsi_roundtrip (p : ℚ) :
    PaToPsi (PsiToPa p) = p ∧ PsiToPa (PaToPsi p) = p := by
  unfold PsiToPa PaToPsi
  refine ⟨?_, ?_⟩ <;> · field_simp; try ring

/-- The fields of the network observed by the const-qualified status
accessors of `network.h` (lines 211-224), together with representative
mutable simulation fields, so that leaving the whole record unchanged
means leaving every field unchanged. -/
structure network where
  ready : Bool
  networkSource : Int
  record : Bool
  videoRecording : Bool
  absolutePermeability : ℚ
  porosity : ℚ
  simulationRunning : Bool
  Nz : Int
  simulationNotification : String
  cancel : Bool
  flow : ℚ

/-- `getReady` of `network.h` line 211: a const member observing
`ready`; the receiver state is returned unchanged. -/
def getReady (s : network) : Bool × network := (s.ready, s)

/-- `getNetworkSource` of `network.h` line 213, const. -/
def getNetworkSource (s : network) : Int × network := (s.networkSource, s)

/-- `getRecord` of `network.h` line 214, const. -/
def getRecord (s : network) : Bool × network := (s.record, s)

/-- `getVideoRecording` of `network.h` line 215, const. -/
def getVideoRecording (s : network) : Bool × network := (s.videoRecording, s)

/-- `getAbsolutePermeability` of `network.h` line 216, const. -/
def getAbsolutePermeability (s : network) : ℚ × network := (s.absolutePermeability, s)

/-- `getPorosity` of `network.h` line 217, const. -/
def getPorosity (s : network) : ℚ × network := (s.porosity, s)

/-- `getSimulationRunning` of `network.h` line 218, const. -/
def getSimulationRunning (s : network) : Bool × network := (s.simulationRunning, s)

/-- `getNz` of `network.h` line 220, const. -/
def getNz (s : network) : Int × network := (s.Nz, s)

/-- `getSimulationNotification` of `network.h` line 224, const. -/
def getSimulationNotification (s : network) : String × network :=
  (s.simulationNotification, s)

/-- C10: the nine status accessors are read-only queries — each returns
the network state with every field unchanged. -/
theorem status_accessors_pure (s : network) :
    (getReady s).2 = s ∧ (getNetworkSource s).2 = s ∧ (getRecord s).2 = s ∧
      (getVideoRecording s).2 = s ∧ (getAbsolutePermeability s).2 = s ∧
      (getPorosity s).2 = s ∧ (getSimulationRunning s).2 = s ∧ (getNz s).2 = s ∧
      (getSimulationNotification s).2 = s :=
  ⟨rfl, rfl, rfl, rfl, rfl, rfl, rfl, rfl, rfl⟩

end PNM
